import Mathlib

/-!
# OmniDupe — verification of the catalog, detector, actuator, extractor and walker

Shallow embedding of the core of the OmniDupe image-deduplication tool
(`src/database.py`, `src/duplicate_detector.py`, `src/file_manager.py`,
`src/metadata_extractor.py`, `src/image_scanner.py`), together with proofs
and refutations of the specification claims about it.
-/

namespace Omnidupe

/-! ## Catalog model (`src/database.py`)

The `images` table of `database.py` is modelled as a list of rows plus the
AUTOINCREMENT counter.  Only the columns the claims touch are carried in
`Meta`; the removal-workflow columns (`marked_for_removal`, `is_protected`,
`removal_reason`) are separate fields with their schema defaults
(FALSE / FALSE / NULL). -/

structure Meta where
  file_size : Nat
  file_hash : String
  width : Nat
  height : Nat
  timestamp : Option String
  perceptual_hash : Option String
deriving DecidableEq, Repr

structure ImageRow where
  id : Nat
  file_path : String
  meta : Meta
  marked_for_removal : Bool
  is_protected : Bool
  removal_reason : Option String
deriving DecidableEq, Repr

structure GroupImageRow where
  group_id : Nat
  image_id : Nat
  is_keeper : Bool
deriving DecidableEq, Repr

structure Catalog where
  rows : List ImageRow
  nextImageId : Nat
  groupRows : List GroupImageRow
  nextGroupId : Nat
deriving DecidableEq, Repr

def emptyCatalog : Catalog :=
  { rows := [], nextImageId := 1, groupRows := [], nextGroupId := 1 }

/-- `Database.store_image_metadata` (database.py:132-183).  The SQL statement is
`INSERT OR REPLACE INTO images (file_path, file_size, ..., modification_time) VALUES ...`.
SQLite's REPLACE conflict resolution deletes the row that conflicts on the
UNIQUE `file_path` column and inserts a brand-new row; every column absent
from the column list — in particular `marked_for_removal`, `is_protected`
and `removal_reason` — takes its schema DEFAULT, and the AUTOINCREMENT `id`
is freshly allocated. -/
def store_image_metadata (db : Catalog) (path : String) (m : Meta) : Catalog :=
  { db with
    rows := db.rows.filter (fun r => r.file_path ≠ path) ++
      [ { id := db.nextImageId, file_path := path, meta := m,
          marked_for_removal := false, is_protected := false,
          removal_reason := none } ],
    nextImageId := db.nextImageId + 1 }

/-- `Database.mark_image_for_removal` (database.py:425-448):
`UPDATE images SET marked_for_removal = TRUE, removal_reason = ? WHERE id = ? AND is_protected = FALSE`. -/
def mark_image_for_removal (db : Catalog) (image_id : Nat) (reason : String) : Catalog :=
  { db with
    rows := db.rows.map (fun r =>
      if r.id = image_id ∧ r.is_protected = false then
        { r with marked_for_removal := true, removal_reason := some reason }
      else r) }

/-- `Database.mark_image_protected` (database.py:450-477):
`UPDATE images SET is_protected = TRUE, marked_for_removal = FALSE, removal_reason = NULL WHERE file_path = ?`. -/
def mark_image_protected (db : Catalog) (path : String) : Catalog :=
  { db with
    rows := db.rows.map (fun r =>
      if r.file_path = path then
        { r with is_protected := true, marked_for_removal := false,
                 removal_reason := none }
      else r) }

/-- `Database.unmark_image_for_removal` (database.py:501-518):
`UPDATE images SET marked_for_removal = FALSE, removal_reason = NULL WHERE id = ?`. -/
def unmark_image_for_removal (db : Catalog) (image_id : Nat) : Catalog :=
  { db with
    rows := db.rows.map (fun r =>
      if r.id = image_id then
        { r with marked_for_removal := false, removal_reason := none }
      else r) }

/-- `Database.create_duplicate_group` (database.py:279-301): inserts a
`duplicate_groups` row; it never touches the `images` table. -/
def create_duplicate_group (db : Catalog) : Catalog :=
  { db with nextGroupId := db.nextGroupId + 1 }

/-- `Database.add_image_to_group` (database.py:303-321):
`INSERT OR REPLACE INTO group_images (group_id, image_id, is_keeper) VALUES (?, ?, ?)`
with composite primary key `(group_id, image_id)`; it never touches `images`. -/
def add_image_to_group (db : Catalog) (gid iid : Nat) (isKeeper : Bool) : Catalog :=
  { db with
    groupRows :=
      db.groupRows.filter (fun g => ¬(g.group_id = gid ∧ g.image_id = iid)) ++
        [⟨gid, iid, isKeeper⟩] }

/-- The catalog mutations reachable through the public API of `database.py`
that write to the store. -/
inductive Op where
  | store (path : String) (m : Meta)
  | mark (image_id : Nat) (reason : String)
  | protect (path : String)
  | unmark (image_id : Nat)
  | createGroup
  | addToGroup (gid iid : Nat) (isKeeper : Bool)
deriving DecidableEq, Repr

def applyOp (db : Catalog) : Op → Catalog
  | .store p m => store_image_metadata db p m
  | .mark i r => mark_image_for_removal db i r
  | .protect p => mark_image_protected db p
  | .unmark i => unmark_image_for_removal db i
  | .createGroup => create_duplicate_group db
  | .addToGroup g i k => add_image_to_group db g i k

def runOps (db : Catalog) (ops : List Op) : Catalog :=
  ops.foldl applyOp db

/-- The protection/marking invariant: no row is simultaneously protected and
marked for removal. -/
def protMarkInv (db : Catalog) : Prop :=
  ∀ r ∈ db.rows, ¬(r.is_protected = true ∧ r.marked_for_removal = true)

theorem applyOp_protMarkInv {db : Catalog} (op : Op) (h : protMarkInv db) :
    protMarkInv (applyOp db op) := by
  cases op with
  | store p m =>
    intro r hr
    simp only [applyOp, store_image_metadata, List.mem_append, List.mem_filter,
      List.mem_singleton] at hr
    rcases hr with ⟨hr, -⟩ | hr
    · exact h r hr
    · subst hr; simp
  | mark i reason =>
    intro r hr
    simp only [applyOp, mark_image_for_removal, List.mem_map] at hr
    obtain ⟨a, ha, rfl⟩ := hr
    by_cases hc : a.id = i ∧ a.is_protected = false
    · simp [hc]
    · simpa [hc] using h a ha
  | protect p =>
    intro r hr
    simp only [applyOp, mark_image_protected, List.mem_map] at hr
    obtain ⟨a, ha, rfl⟩ := hr
    by_cases hc : a.file_path = p
    · simp [hc]
    · simpa [hc] using h a ha
  | unmark i =>
    intro r hr
    simp only [applyOp, unmark_image_for_removal, List.mem_map] at hr
    obtain ⟨a, ha, rfl⟩ := hr
    by_cases hc : a.id = i
    · simp [hc]
    · simpa [hc] using h a ha
  | createGroup =>
    intro r hr
    exact h r hr
  | addToGroup g i k =>
    intro r hr
    exact h r hr

theorem runOps_protMarkInv {db : Catalog} (ops : List Op) (h : protMarkInv db) :
    protMarkInv (runOps db ops) := by
  induction ops generalizing db with
  | nil => exact h
  | cons op rest ih => exact ih (applyOp_protMarkInv op h)

/-- **C3.** For every catalog state reachable from the empty catalog by any
sequence of API operations (store, mark for removal, protect, unmark, group
persistence), no image row ever has `is_protected = true` and
`marked_for_removal = true` simultaneously: `mark_image_for_removal` is a
no-op on protected rows, and `mark_image_protected` clears any existing mark
and reason in the same update. -/
theorem C3_no_protected_and_marked (ops : List Op) (r : ImageRow)
    (hr : r ∈ (runOps emptyCatalog ops).rows) :
    ¬(r.is_protected = true ∧ r.marked_for_removal = true) :=
  runOps_protMarkInv ops (by intro r hr; simp [emptyCatalog] at hr) r hr

def m₀ : Meta :=
  { file_size := 100, file_hash := "h", width := 10, height := 10,
    timestamp := none, perceptual_hash := none }

/-- Witness for C3 at a concrete operation sequence: store a row, protect it,
then try to mark it for removal; the resulting row is not both protected and
marked. -/
theorem C3_no_protected_and_marked_witness :
    ¬((⟨1, "/a.jpg", m₀, false, true, none⟩ : ImageRow).is_protected = true ∧
      (⟨1, "/a.jpg", m₀, false, true, none⟩ : ImageRow).marked_for_removal = true) :=
  C3_no_protected_and_marked
    [Op.store "/a.jpg" m₀, Op.protect "/a.jpg", Op.mark 1 "duplicate"]
    ⟨1, "/a.jpg", m₀, false, true, none⟩ (by decide)

/-- **C1 (refuted on the code).** Re-inserting the path of a protected row via
`store_image_metadata` does not preserve `is_protected`: the REPLACE deletes
the protected row and the fresh row carries the column defaults, so its
`is_protected` is `false`.  Evaluated at the failing input: store `/a.jpg`,
protect it, store `/a.jpg` again. -/
theorem C1_store_erases_protection :
    (∃ r ∈ (mark_image_protected
        (store_image_metadata emptyCatalog "/a.jpg" m₀) "/a.jpg").rows,
      r.file_path = "/a.jpg" ∧ r.is_protected = true) ∧
    (∀ r ∈ (store_image_metadata
        (mark_image_protected
          (store_image_metadata emptyCatalog "/a.jpg" m₀) "/a.jpg")
        "/a.jpg" m₀).rows,
      r.file_path = "/a.jpg" → r.is_protected = false) := by
  decide

/-- **C9 (amended).** `mark_image_for_removal` followed by
`unmark_image_for_removal` restores the catalog, provided every row carrying
the targeted id was not already marked (its `marked_for_removal` is false and
its `removal_reason` is null — as holds for every reachable unmarked row). -/
theorem C9_mark_unmark_roundtrip (db : Catalog) (i : Nat) (reason : String)
    (h : ∀ r ∈ db.rows, r.id = i →
      r.marked_for_removal = false ∧ r.removal_reason = none) :
    unmark_image_for_removal (mark_image_for_removal db i reason) i = db := by
  cases db with
  | mk rows nid grows ngid =>
    simp only [unmark_image_for_removal, mark_image_for_removal, List.map_map,
      Catalog.mk.injEq, and_true, true_and]
    have : ∀ r ∈ rows,
        (fun r : ImageRow =>
          if r.id = i then
            { r with marked_for_removal := false, removal_reason := none }
          else r)
          ((fun r : ImageRow =>
            if r.id = i ∧ r.is_protected = false then
              { r with marked_for_removal := true, removal_reason := some reason }
            else r) r) = r := by
      intro r hr
      by_cases hid : r.id = i
      · obtain ⟨hm, hrr⟩ := h r hr hid
        by_cases hp : r.is_protected = false
        · cases r
          simp_all
        · cases r
          simp_all
      · simp [hid]
    calc rows.map _ = rows.map id := List.map_congr_left this
    _ = rows := List.map_id rows

/-- Witness for C9's amended round-trip at a concrete catalog containing one
unmarked row. -/
theorem C9_mark_unmark_roundtrip_witness :
    unmark_image_for_removal
      (mark_image_for_removal
        (store_image_metadata emptyCatalog "/a.jpg" m₀) 1 "duplicate") 1 =
      store_image_metadata emptyCatalog "/a.jpg" m₀ :=
  C9_mark_unmark_roundtrip _ 1 "duplicate" (by decide)

/-- **C9 (counterexample to the claim as stated).** On a reachable catalog
whose row is already marked with reason `"duplicate"`, marking again and then
unmarking does not restore the prior state: the row ends unmarked with its
reason cleared instead of re-marked. -/
theorem C9_counterexample :
    unmark_image_for_removal
      (mark_image_for_removal
        (mark_image_for_removal
          (store_image_metadata emptyCatalog "/a.jpg" m₀) 1 "duplicate")
        1 "similar") 1 ≠
      mark_image_for_removal
        (store_image_metadata emptyCatalog "/a.jpg" m₀) 1 "duplicate" := by
  decide

/-! ## Detector model (`src/duplicate_detector.py`) -/

/-- The dictionary a group member carries (a `dict(row)` copy of an `images`
row); only the fields `select_keeper` and `_store_duplicate_groups` read. -/
structure Img where
  id : Nat
  file_path : String
  file_size : Nat
  width : Nat
  height : Nat
deriving DecidableEq, Repr

/-- `pathlib.Path(p).name`: the final path component. -/
def basename (p : String) : String :=
  (p.splitOn "/").getLastD p

/-- The sort key of `DuplicateGroup.select_keeper` (duplicate_detector.py:45-53):
`(-(width*height), -file_size, len(Path(file_path).name), file_path)`,
compared lexicographically (Python tuple comparison). -/
def keeperKey (img : Img) : Lex (Int × Lex (Int × Lex (Nat × String))) :=
  toLex (-((img.width : Int) * (img.height : Int)),
    toLex (-(img.file_size : Int),
      toLex ((basename img.file_path).length, img.file_path)))

def keyLe (a b : Img) : Bool :=
  decide (keeperKey a ≤ keeperKey b)

theorem keyLe_refl (a : Img) : keyLe a a = true := by
  simp [keyLe]

theorem keyLe_trans {a b c : Img} (h₁ : keyLe a b = true) (h₂ : keyLe b c = true) :
    keyLe a c = true := by
  simp only [keyLe, decide_eq_true_eq] at *
  exact le_trans h₁ h₂

theorem keyLe_total (a b : Img) : (keyLe a b || keyLe b a) = true := by
  simp only [keyLe, Bool.or_eq_true, decide_eq_true_eq]
  exact le_total _ _

theorem keyLe_antisymm {a b : Img} (h₁ : keyLe a b = true) (h₂ : keyLe b a = true) :
    a.file_path = b.file_path := by
  simp only [keyLe, decide_eq_true_eq] at h₁ h₂
  have h := le_antisymm h₁ h₂
  simp only [keeperKey, toLex_inj, Prod.mk.injEq] at h
  exact h.2.2.2

/-- `DuplicateGroup.select_keeper` (duplicate_detector.py:27-56): `None` on an
empty group, the sole member of a singleton, otherwise the first element of
the members stably sorted by `keeperKey`. -/
def select_keeper (images : List Img) : Option Img :=
  match images with
  | [] => none
  | [i] => some i
  | _ => (images.mergeSort keyLe).head?

/-- The image-id lookup in `_store_duplicate_groups`
(duplicate_detector.py:364-369): scan `get_all_images()` for the first row
with the member's `file_path` and take its `id`. -/
def findImageId (dbRows : List Img) (path : String) : Option Nat :=
  (dbRows.find? (fun r => r.file_path == path)).map Img.id

/-- The per-group body of `_store_duplicate_groups`
(duplicate_detector.py:351-373): select the keeper, then for each member look
up its database id and — when the id is truthy (`if image_id:` treats both a
missing row and id 0 as falsy) — emit a `group_images` row whose `is_keeper`
flag is the Python `==` comparison of the member dict with the keeper dict. -/
def storeGroupRows (dbRows : List Img) (images : List Img) : List (Nat × Bool) :=
  match select_keeper images with
  | none => []
  | some keeper =>
    images.filterMap (fun img =>
      match findImageId dbRows img.file_path with
      | none => none
      | some imageId =>
        if imageId = 0 then none
        else some (imageId, img == keeper))

theorem storeGroupRows_body_count (dbRows : List Img) (keeper : Img) :
    ∀ l : List Img,
      (∀ img ∈ l, ∃ i, findImageId dbRows img.file_path = some i ∧ i ≠ 0) →
      (l.filterMap (fun img =>
        match findImageId dbRows img.file_path with
        | none => none
        | some imageId =>
          if imageId = 0 then none
          else some (imageId, img == keeper))).countP (fun e => e.2) =
        l.count keeper := by
  intro l
  induction l with
  | nil => intro _; rfl
  | cons img rest ih =>
    intro h
    obtain ⟨i, hi, hi0⟩ := h img (by simp)
    have hrest := ih (fun x hx => h x (by simp [hx]))
    simp only [List.filterMap_cons, hi]
    rw [if_neg hi0]
    simp only [List.countP_cons, List.count_cons]
    by_cases hk : img = keeper
    · simpa [hk] using hrest
    · have hbeq : (img == keeper) = false := by simpa using hk
      simpa [hbeq, hk] using hrest

/-- **C4.** For a duplicate group with at least two members, pairwise-distinct
member paths, and every member present in the catalog with a nonzero id:
keeper selection is total and deterministic — `select_keeper` returns a member
that is minimal under the lexicographic key and is the unique such minimal
member — and the persisted `group_images` rows for the group contain exactly
one row with `is_keeper = true`. -/
theorem C4_keeper_selection (dbRows images : List Img)
    (hlen : 2 ≤ images.length)
    (hnd : (images.map Img.file_path).Nodup)
    (hdb : ∀ img ∈ images, ∃ i, findImageId dbRows img.file_path = some i ∧ i ≠ 0) :
    ∃ k, select_keeper images = some k ∧ k ∈ images ∧
      (∀ i ∈ images, keyLe k i = true) ∧
      (∀ m ∈ images, (∀ i ∈ images, keyLe m i = true) → m = k) ∧
      (storeGroupRows dbRows images).countP (fun e => e.2) = 1 := by
  obtain ⟨a, rest, rfl⟩ : ∃ a rest, images = a :: rest := by
    cases images with
    | nil => simp at hlen
    | cons a rest => exact ⟨a, rest, rfl⟩
  obtain ⟨b, t, rfl⟩ : ∃ b t, rest = b :: t := by
    cases rest with
    | nil => simp at hlen
    | cons b t => exact ⟨b, t, rfl⟩
  have hsel : select_keeper (a :: b :: t) =
      ((a :: b :: t).mergeSort keyLe).head? := rfl
  have hne : (a :: b :: t).mergeSort keyLe ≠ [] := by
    intro hnil
    have hlen2 := (List.mergeSort_perm (a :: b :: t) keyLe).length_eq
    rw [hnil] at hlen2
    simp at hlen2
  obtain ⟨k, s', hks⟩ := List.exists_cons_of_ne_nil hne
  have hk : select_keeper (a :: b :: t) = some k := by
    rw [hsel, hks]; rfl
  have hkmem : k ∈ a :: b :: t := by
    have : k ∈ (a :: b :: t).mergeSort keyLe := by simp [hks]
    exact List.mem_mergeSort.mp this
  have hsorted := @List.sorted_mergeSort _ keyLe
    (fun x y z h₁ h₂ => keyLe_trans h₁ h₂) keyLe_total (a :: b :: t)
  have hmin : ∀ i ∈ a :: b :: t, keyLe k i = true := by
    intro i hi
    have hi' : i ∈ k :: s' := by
      rw [← hks]
      exact List.mem_mergeSort.mpr hi
    rcases List.mem_cons.mp hi' with rfl | h
    · exact keyLe_refl i
    · rw [hks] at hsorted
      exact (List.pairwise_cons.mp hsorted).1 i h
  have hinj : ∀ x ∈ a :: b :: t, ∀ y ∈ a :: b :: t, x.file_path = y.file_path → x = y := by
    intro x hx y hy hxy
    exact List.inj_on_of_nodup_map hnd hx hy hxy
  refine ⟨k, hk, hkmem, hmin, ?_, ?_⟩
  · intro m hm hmall
    exact hinj m hm k hkmem (keyLe_antisymm (hmall k hkmem) (hmin m hm))
  · have hcount : (a :: b :: t).count k = 1 :=
      List.count_eq_one_of_mem (hnd.of_map) hkmem
    calc (storeGroupRows dbRows (a :: b :: t)).countP (fun e => e.2)
        = (a :: b :: t).count k := by
          rw [storeGroupRows, hk]
          exact storeGroupRows_body_count dbRows k (a :: b :: t) hdb
    _ = 1 := hcount

def imgA : Img := { id := 1, file_path := "/a.jpg", file_size := 100, width := 10, height := 10 }

def imgB : Img := { id := 2, file_path := "/b/a.jpg", file_size := 100, width := 10, height := 10 }

/-- Witness for C4 at the spec's end-to-end scenario 1: two byte-identical
copies `/a.jpg` and `/b/a.jpg`; the keeper is `/a.jpg` (shorter sort key by
path), and exactly one persisted row has `is_keeper = true`. -/
theorem C4_keeper_selection_witness :
    ∃ k, select_keeper [imgA, imgB] = some k ∧ k ∈ [imgA, imgB] ∧
      (∀ i ∈ [imgA, imgB], keyLe k i = true) ∧
      (∀ m ∈ [imgA, imgB], (∀ i ∈ [imgA, imgB], keyLe m i = true) → m = k) ∧
      (storeGroupRows [imgA, imgB] [imgA, imgB]).countP (fun e => e.2) = 1 :=
  C4_keeper_selection [imgA, imgB] [imgA, imgB] (by decide) (by decide)
    (by decide)

/-! ### Perceptual clustering (`_cluster_similar_images`, duplicate_detector.py:286-341)

Cluster elements are abstracted to a type `α` with a distance function `d`
(in the source, `(image, hash)` tuples with `hash1 - hash2`, the Hamming
distance of the `imagehash` library). -/

/-- The inner `while i < len(remaining)` loop (duplicate_detector.py:313-332).
`seed` is `current_hash`, read from `current_group[0]` before the loop and
never updated.  The similarity test on line 318-326 iterates over
`current_group` binding each member's hash as `group_hash`, but the distance
computed on line 320 is `current_hash - other_hash`: it compares the
candidate against the seed on every iteration, never against `group_hash`.
Returns the grown cluster and the elements left in the pool, in order. -/
def scanRemaining (d : α → α → Nat) (T : Nat) (seed : α) :
    List α → List α → List α × List α
  | group, [] => (group, [])
  | group, other :: rest =>
    if group.any (fun _member => decide (d seed other ≤ T)) then
      scanRemaining d T seed (group ++ [other]) rest
    else
      let res := scanRemaining d T seed group rest
      (res.1, other :: res.2)

theorem scanRemaining_snd_length (d : α → α → Nat) (T : Nat) (seed : α) :
    ∀ (rem group : List α),
      (scanRemaining d T seed group rem).2.length ≤ rem.length := by
  intro rem
  induction rem with
  | nil => intro group; simp [scanRemaining]
  | cons other rest ih =>
    intro group
    by_cases hc : group.any (fun _member => decide (d seed other ≤ T)) = true
    · rw [scanRemaining, if_pos hc]
      exact le_trans (ih _) (by simp)
    · rw [scanRemaining, if_neg hc]
      simpa using ih group

/-- The outer `while remaining` loop of `_cluster_similar_images`
(duplicate_detector.py:302-340): pop the first pool element as the seed of a
new cluster, sweep the pool with `scanRemaining`, keep the cluster only when
it has more than one element.  Each iteration removes at least the seed from
the pool, so `fuel`, initialized to the pool length, is a structural
termination measure that never runs out (`clusterLoop_fuel_congr`). -/
def clusterLoop (d : α → α → Nat) (T : Nat) : Nat → List α → List (List α)
  | _, [] => []
  | 0, _ :: _ => []
  | fuel + 1, seed :: rest =>
    let res := scanRemaining d T seed [seed] rest
    if 1 < res.1.length then
      res.1 :: clusterLoop d T fuel res.2
    else
      clusterLoop d T fuel res.2

/-- Any fuel at least the pool length computes the same clusters, so the
fuel in `_cluster_similar_images` is irrelevant: the function is the exact
meaning of the source's unbounded `while remaining` loop. -/
theorem clusterLoop_fuel_congr (d : α → α → Nat) (T : Nat) :
    ∀ (fuel fuel' : Nat) (pool : List α),
      pool.length ≤ fuel → pool.length ≤ fuel' →
      clusterLoop d T fuel pool = clusterLoop d T fuel' pool := by
  intro fuel
  induction fuel with
  | zero =>
    intro fuel' pool h _
    cases pool with
    | nil => cases fuel' <;> rfl
    | cons seed rest => simp at h
  | succ n ih =>
    intro fuel' pool h h'
    cases pool with
    | nil => cases fuel' <;> rfl
    | cons seed rest =>
      cases fuel' with
      | zero => simp at h'
      | succ m =>
        have hr : (scanRemaining d T seed [seed] rest).2.length ≤ rest.length :=
          scanRemaining_snd_length d T seed rest [seed]
        have hn : (scanRemaining d T seed [seed] rest).2.length ≤ n :=
          le_trans hr (by simpa using h)
        have hm : (scanRemaining d T seed [seed] rest).2.length ≤ m :=
          le_trans hr (by simpa using h')
        simp only [clusterLoop]
        rw [ih m _ hn hm]

/-- `DuplicateDetector._cluster_similar_images` (duplicate_detector.py:286-341). -/
def _cluster_similar_images (d : α → α → Nat) (T : Nat) (pool : List α) :
    List (List α) :=
  clusterLoop d T pool.length pool

/-- Hamming distance between two equal-length bit strings, the meaning of
`hash1 - hash2` for `imagehash` hashes. -/
def hammingDist (a b : List Bool) : Nat :=
  (List.zipWith xor a b).count true

def hashA : List Bool := List.replicate 16 false

def hashB : List Bool := List.replicate 5 true ++ List.replicate 11 false

def hashC : List Bool := List.replicate 10 true ++ List.replicate 6 false

/-- **C2 (refuted on the code).** With the default threshold `T = 5`,
candidate `hashC` is within distance 5 of the already-added non-seed member
`hashB` but at distance 10 from the seed `hashA`; the claim says it is
included in the cluster, yet the code leaves it out (it compares every
candidate against the seed only), so clustering yields `[[hashA, hashB]]`
and `hashC` ends up in no group. -/
theorem C2_cluster_ignores_nonseed_members :
    hammingDist hashB hashC ≤ 5 ∧ ¬(hammingDist hashA hashC ≤ 5) ∧
    _cluster_similar_images hammingDist 5 [hashA, hashB, hashC] = [[hashA, hashB]] := by
  decide

/-! ### Group persistence failure handling (`_store_duplicate_groups`, duplicate_detector.py:343-376) -/

/-- `DuplicateDetector._store_duplicate_groups` control flow
(duplicate_detector.py:343-376).  The single `try`/`except Exception` wraps
the entire `for group in duplicate_groups` loop, so an exception raised while
storing one group is logged and swallowed — the detector itself does not
abort — but the loop does not resume: no later group is stored.
`storeFails g = true` models "persisting group `g` raises a catalog error".
The result is the list of groups actually persisted. -/
def _store_duplicate_groups (storeFails : α → Bool) : List α → List α
  | [] => []
  | g :: rest =>
    if storeFails g then []
    else g :: _store_duplicate_groups storeFails rest

/-- **C5 (counterexample to the claim as stated).** With two groups where
only the first fails to store, the second group — which would store fine —
is not persisted: the stored list is empty. -/
theorem C5_counterexample :
    (fun g => g == 1) (2 : Nat) = false ∧
    (2 : Nat) ∉ _store_duplicate_groups (fun g => g == 1) [1, 2] := by
  decide

/-- **C5 (amended).** A catalog error raised while storing one group is
caught and logged at the level of the whole loop, so the detector run
continues, but persistence stops at the first failing group: exactly the
longest failure-free prefix of the group list is stored. -/
theorem C5_store_groups_stops_at_first_failure (storeFails : α → Bool)
    (gs : List α) :
    _store_duplicate_groups storeFails gs =
      gs.takeWhile (fun g => !storeFails g) := by
  induction gs with
  | nil => rfl
  | cons g rest ih =>
    by_cases h : storeFails g = true
    · simp [_store_duplicate_groups, List.takeWhile_cons, h]
    · simp [_store_duplicate_groups, List.takeWhile_cons, h, ih]

/-! ## File actuator model (`src/file_manager.py`) -/

/-- The name-conflict loop of `FileManager._move_file_to_directory`
(file_manager.py:451-468).  `ex` is `Path.exists` on the destination
directory, `name k` is the candidate `f"{stem}_{timestamp}_{k}{suffix}"`,
`counter` starts at 1, and `fuel` counts the remaining loop iterations before
`counter > 1000` raises (the raise fires in the body that has just consumed
the 1000th counter value, before re-testing existence, so with the initial
timestamp name checked separately the loop consults `ex` on `name 1` …
`name 999` and aborts if all of them — and the timestamp name — exist).
`none` models the raised exception, which the surrounding handler turns into
"item failed, no move performed". -/
def moveNameLoop (ex : String → Bool) (name : Nat → String) :
    Nat → Nat → String → Option String
  | _, 0, dest => if ex dest then none else some dest
  | counter, fuel + 1, dest =>
    if ex dest then moveNameLoop ex name (counter + 1) fuel (name counter)
    else some dest

/-- Destination-name resolution in `FileManager._move_file_to_directory`
(file_manager.py:445-468): use the original filename when it is free,
otherwise the timestamped name `f"{stem}_{timestamp}{suffix}"`, resolving
continued conflicts through `moveNameLoop`.  `shutil.move` is then performed
onto the returned name; `none` means the item is aborted without a move. -/
def resolveDestName (ex : String → Bool) (origName stem suffix ts : String) :
    Option String :=
  if ex origName then
    moveNameLoop ex (fun c => stem ++ "_" ++ ts ++ "_" ++ toString c ++ suffix)
      1 999 (stem ++ "_" ++ ts ++ suffix)
  else some origName

theorem moveNameLoop_some_not_exists (ex : String → Bool) (name : Nat → String) :
    ∀ (fuel counter : Nat) (dest dst : String),
      moveNameLoop ex name counter fuel dest = some dst → ex dst = false := by
  intro fuel
  induction fuel with
  | zero =>
    intro counter dest dst h
    by_cases he : ex dest = true
    · rw [moveNameLoop, if_pos he] at h
      exact absurd h (by simp)
    · rw [moveNameLoop, if_neg he] at h
      cases h
      simpa using he
  | succ n ih =>
    intro counter dest dst h
    by_cases he : ex dest = true
    · rw [moveNameLoop, if_pos he] at h
      exact ih (counter + 1) (name counter) dst h
    · rw [moveNameLoop, if_neg he] at h
      cases h
      simpa using he

theorem moveNameLoop_none_iff (ex : String → Bool) (name : Nat → String) :
    ∀ (fuel counter : Nat) (dest : String),
      moveNameLoop ex name counter fuel dest = none ↔
        (ex dest = true ∧
          ∀ k, counter ≤ k → k < counter + fuel → ex (name k) = true) := by
  intro fuel
  induction fuel with
  | zero =>
    intro counter dest
    by_cases he : ex dest = true
    · rw [moveNameLoop, if_pos he]
      simp only [he, true_and]
      constructor
      · intro _ k hk1 hk2
        omega
      · intro _
        trivial
    · rw [moveNameLoop, if_neg he]
      simp [he]
  | succ n ih =>
    intro counter dest
    by_cases he : ex dest = true
    · rw [moveNameLoop, if_pos he]
      rw [ih (counter + 1) (name counter)]
      simp only [he, true_and]
      constructor
      · rintro ⟨hc, hall⟩ k hk1 hk2
        rcases Nat.eq_or_lt_of_le hk1 with rfl | hlt
        · exact hc
        · exact hall k hlt (by omega)
      · intro hall
        exact ⟨hall counter le_rfl (by omega),
          fun k hk1 hk2 => hall k (by omega) (by omega)⟩
    · rw [moveNameLoop, if_neg he]
      simp [he]

/-- **C6.** The move actuator never overwrites an existing destination file:
whenever `resolveDestName` yields a name, that name does not exist in the
destination directory; on a conflict it tries the timestamped name and then
counter-suffixed names, and it aborts the item (no move performed) exactly
when the original name, the timestamped name and all 999 counter names that
the loop tests before the 1000-step guard fires already exist. -/
theorem C6_move_never_overwrites (ex : String → Bool)
    (origName stem suffix ts : String) :
    (∀ dst, resolveDestName ex origName stem suffix ts = some dst →
      ex dst = false) ∧
    (resolveDestName ex origName stem suffix ts = none ↔
      (ex origName = true ∧ ex (stem ++ "_" ++ ts ++ suffix) = true ∧
        ∀ k, 1 ≤ k → k ≤ 999 →
          ex (stem ++ "_" ++ ts ++ "_" ++ toString k ++ suffix) = true)) := by
  constructor
  · intro dst h
    by_cases he : ex origName = true
    · rw [resolveDestName, if_pos he] at h
      exact moveNameLoop_some_not_exists ex _ 999 1 _ dst h
    · rw [resolveDestName, if_neg he] at h
      cases h
      simpa using he
  · by_cases he : ex origName = true
    · rw [resolveDestName, if_pos he]
      rw [moveNameLoop_none_iff]
      simp only [he, true_and]
      constructor
      · rintro ⟨hts, hall⟩
        exact ⟨hts, fun k hk1 hk2 => hall k hk1 (by omega)⟩
      · rintro ⟨hts, hall⟩
        exact ⟨hts, fun k hk1 hk2 => hall k hk1 (by omega)⟩
    · rw [resolveDestName, if_neg he]
      simp [he]

/-- Witness for C6 at the spec's end-to-end scenario 5: moving a second
`x.jpg` into a directory that already holds `x.jpg` picks the timestamped
name, which does not exist there. -/
theorem C6_move_never_overwrites_witness :
    (fun s => s == "x.jpg") "x_123.jpg" = false :=
  (C6_move_never_overwrites (fun s => s == "x.jpg") "x.jpg" "x" ".jpg" "123").1
    "x_123.jpg" (by decide)

/-- The state `FileManager._remove_file_and_update_db` observes and mutates:
the target path's filesystem status and the catalog row's removal mark. -/
structure ActuatorState where
  fileExists : Bool
  isRegularFile : Bool
  writable : Bool
  marked : Bool
deriving DecidableEq, Repr

/-- `FileManager._remove_file_and_update_db` (file_manager.py:323-391).
`opOk` models the outcome of the file operation (`_move_file_to_directory`'s
Boolean result, or `unlink` raising into the surrounding handlers, which
return `False` with the file untouched); `dbFails` models
`database.unmark_image_for_removal` raising (caught, logged as a warning).
Returns the reported success flag and the post state. -/
def _remove_file_and_update_db (dryRun opOk dbFails : Bool)
    (s : ActuatorState) : Bool × ActuatorState :=
  if s.fileExists = false then
    (true,
      if dryRun = false ∧ dbFails = false then { s with marked := false } else s)
  else if s.isRegularFile = false then (false, s)
  else if s.writable = false then (false, s)
  else if dryRun then (true, s)
  else if opOk then
    (true,
      if dbFails then { s with fileExists := false }
      else { s with fileExists := false, marked := false })
  else (false, s)

/-- **C7.** Non-dry-run actuator semantics: a missing file is treated as
success and its mark is cleared (when the catalog update itself does not
fail); and when the file operation succeeds but the subsequent catalog unmark
fails, the item still reports success, the file operation is not reverted
(the file stays gone) and the mark is left as it was. -/
theorem C7_actuator_success_semantics (opOk dbFails : Bool) (s : ActuatorState) :
    (s.fileExists = false →
      (_remove_file_and_update_db false opOk dbFails s).1 = true ∧
      (dbFails = false →
        ((_remove_file_and_update_db false opOk dbFails s).2).marked = false)) ∧
    (s.fileExists = true → s.isRegularFile = true → s.writable = true →
      opOk = true → dbFails = true →
      (_remove_file_and_update_db false opOk dbFails s).1 = true ∧
      ((_remove_file_and_update_db false opOk dbFails s).2).fileExists = false ∧
      ((_remove_file_and_update_db false opOk dbFails s).2).marked = s.marked) := by
  cases s with
  | mk fe irf w m =>
    cases fe <;> cases irf <;> cases w <;> cases m <;> cases opOk <;>
      cases dbFails <;> simp [_remove_file_and_update_db]

/-- Witness for C7: an existing, regular, writable, marked file whose
removal succeeds but whose catalog unmark fails still reports success, stays
removed, and keeps its mark. -/
theorem C7_actuator_success_semantics_witness :
    (_remove_file_and_update_db false true true ⟨true, true, true, true⟩).1 = true ∧
    ((_remove_file_and_update_db false true true ⟨true, true, true, true⟩).2).fileExists = false ∧
    ((_remove_file_and_update_db false true true ⟨true, true, true, true⟩).2).marked =
      (⟨true, true, true, true⟩ : ActuatorState).marked :=
  (C7_actuator_success_semantics true true ⟨true, true, true, true⟩).2
    rfl rfl rfl rfl rfl

/-! ## Metadata extractor model (`src/metadata_extractor.py`) -/

structure Timestamp where
  year : Nat
  month : Nat
  day : Nat
  hour : Nat
  minute : Nat
  second : Nat
deriving DecidableEq, Repr

def parseDigits (cs : List Char) : Option Nat :=
  if cs ≠ [] ∧ cs.all Char.isDigit then
    some (cs.foldl (fun acc c => acc * 10 + (c.toNat - 48)) 0)
  else none

def isLeapYear (y : Nat) : Bool :=
  (y % 4 == 0 && y % 100 != 0) || (y % 400 == 0)

def daysInMonth (y m : Nat) : Nat :=
  if m = 2 then (if isLeapYear y then 29 else 28)
  else if m = 4 ∨ m = 6 ∨ m = 9 ∨ m = 11 then 30
  else 31

/-- Splitting a character list on a separator; the semantics of Python's
`str.split(sep)` for a one-character separator (never returns the empty
list; the empty input yields one empty field). -/
def splitOnChar (sep : Char) : List Char → List (List Char)
  | [] => [[]]
  | c :: rest =>
    let r := splitOnChar sep rest
    if c = sep then [] :: r
    else
      match r with
      | [] => [[c]]
      | g :: gs => (c :: g) :: gs

/-- `datetime.strptime(value, "%Y:%m:%d %H:%M:%S")` as used on
metadata_extractor.py:165 and 262: split on the single space and the colons,
require all-digit fields, and require a valid proleptic-Gregorian calendar
date and a valid time of day (a `ValueError` — modelled as `none` — is raised
otherwise and leaves the timestamp untouched). -/
def parseExifTimestamp (s : String) : Option Timestamp :=
  match splitOnChar ' ' s.data with
  | [datePart, timePart] =>
    match splitOnChar ':' datePart, splitOnChar ':' timePart with
    | [ys, mos, ds], [hs, mis, secs] =>
      match parseDigits ys, parseDigits mos, parseDigits ds,
            parseDigits hs, parseDigits mis, parseDigits secs with
      | some y, some mo, some d, some h, some mi, some sec =>
        if 1 ≤ y ∧ y ≤ 9999 ∧ 1 ≤ mo ∧ mo ≤ 12 ∧ 1 ≤ d ∧ d ≤ daysInMonth y mo ∧
            h ≤ 23 ∧ mi ≤ 59 ∧ sec ≤ 59 then
          some ⟨y, mo, d, h, mi, sec⟩
        else none
      | _, _, _, _, _, _ => none
    | _, _ => none
  | _ => none

/-- The fields of `ImageMetadata` that `_parse_exif_data` and
`_extract_exif_metadata` populate (GPS is not touched by any claim and is
omitted). -/
structure ExifMeta where
  timestamp : Option Timestamp
  camera_make : String
  camera_model : String
deriving DecidableEq, Repr

/-- `MetadataExtractor._parse_exif_data` (metadata_extractor.py:151-179):
iterate the EXIF items in order; a `DateTime` tag and a `DateTimeOriginal`
tag are handled by one and the same branch
(`if tag_name == 'DateTime' or tag_name == 'DateTimeOriginal'`), so whichever
of the two occurs last in iteration order with a parseable value overwrites
the timestamp.  A parse failure leaves the previous value in place. -/
def _parse_exif_data (entries : List (String × String)) (m : ExifMeta) : ExifMeta :=
  entries.foldl (fun acc e =>
    if e.1 = "DateTime" ∨ e.1 = "DateTimeOriginal" then
      match parseExifTimestamp e.2 with
      | some t => { acc with timestamp := some t }
      | none => acc
    else if e.1 = "Make" then { acc with camera_make := e.2.trim }
    else if e.1 = "Model" then { acc with camera_model := e.2.trim }
    else acc) m

def lookupTag (tags : List (String × String)) (tagName : String) : Option String :=
  (tags.find? (fun e => e.1 == tagName)).map (fun e => e.2)

/-- The timestamp part of `MetadataExtractor._extract_exif_metadata`
(metadata_extractor.py:256-265), the `exifread` fallback: it runs only when
no timestamp was extracted yet, and tries `EXIF DateTimeOriginal` before
`Image DateTime`, advancing on a missing tag or a parse failure and stopping
at the first success. -/
def exifreadTimestampFallback (tags : List (String × String))
    (t0 : Option Timestamp) : Option Timestamp :=
  if t0.isSome then t0
  else
    match (lookupTag tags "EXIF DateTimeOriginal").bind parseExifTimestamp with
    | some t => some t
    | none =>
      match (lookupTag tags "Image DateTime").bind parseExifTimestamp with
      | some t => some t
      | none => none

/-- **C8 (counterexample to the claim as stated).** EXIF data carrying both
`DateTimeOriginal` and `DateTime` in parseable form, with `DateTime` later in
iteration order: the stored timestamp is the `DateTime` value, not the
`DateTimeOriginal` one. -/
theorem C8_counterexample :
    parseExifTimestamp "2020:01:01 00:00:00" = some ⟨2020, 1, 1, 0, 0, 0⟩ ∧
    parseExifTimestamp "2021:02:02 00:00:00" = some ⟨2021, 2, 2, 0, 0, 0⟩ ∧
    (_parse_exif_data
        [("DateTimeOriginal", "2020:01:01 00:00:00"),
         ("DateTime", "2021:02:02 00:00:00")]
        ⟨none, "", ""⟩).timestamp = some ⟨2021, 2, 2, 0, 0, 0⟩ := by
  decide

/-- **C8 (amended).** In the PIL parsing path, `DateTime` and
`DateTimeOriginal` are treated uniformly: the last entry of either tag whose
value parses under the strict `YYYY:MM:DD HH:MM:SS` format sets the
timestamp, and an unparseable value leaves the timestamp unchanged (null if
never set).  `DateTimeOriginal`-before-`DateTime` priority holds only in the
`exifread` fallback, which runs only when the timestamp is still null. -/
theorem C8_amended
    (entries tags : List (String × String)) (m : ExifMeta)
    (tag v bad v1 : String) (t t1 : Timestamp)
    (htag : tag = "DateTime" ∨ tag = "DateTimeOriginal")
    (hv : parseExifTimestamp v = some t)
    (hbad : parseExifTimestamp bad = none)
    (h1 : lookupTag tags "EXIF DateTimeOriginal" = some v1)
    (hp1 : parseExifTimestamp v1 = some t1) :
    (_parse_exif_data (entries ++ [(tag, v)]) m).timestamp = some t ∧
    (_parse_exif_data (entries ++ [(tag, bad)]) m).timestamp =
      (_parse_exif_data entries m).timestamp ∧
    exifreadTimestampFallback tags none = some t1 := by
  refine ⟨?_, ?_, ?_⟩
  · rw [_parse_exif_data, List.foldl_append]
    have : (tag = "DateTime" ∨ tag = "DateTimeOriginal") = True := by
      simp [htag]
    simp only [List.foldl_cons, List.foldl_nil]
    rw [if_pos htag, hv]
  · rw [_parse_exif_data, _parse_exif_data, List.foldl_append]
    simp only [List.foldl_cons, List.foldl_nil]
    rw [if_pos htag, hbad]
  · rw [exifreadTimestampFallback]
    simp only [Option.isSome_none, Bool.false_eq_true, if_false]
    rw [h1]
    simp [hp1]

/-- Witness for C8's amended statement at concrete EXIF data. -/
theorem C8_amended_witness :
    (_parse_exif_data ([] ++ [("DateTime", "2021:02:02 00:00:00")])
      ⟨none, "", ""⟩).timestamp = some ⟨2021, 2, 2, 0, 0, 0⟩ ∧
    (_parse_exif_data ([] ++ [("DateTime", "not a date")])
      ⟨none, "", ""⟩).timestamp = (_parse_exif_data [] ⟨none, "", ""⟩).timestamp ∧
    exifreadTimestampFallback
      [("Image DateTime", "2021:02:02 00:00:00"),
       ("EXIF DateTimeOriginal", "2020:01:01 00:00:00")] none =
      some ⟨2020, 1, 1, 0, 0, 0⟩ :=
  C8_amended [] [("Image DateTime", "2021:02:02 00:00:00"),
      ("EXIF DateTimeOriginal", "2020:01:01 00:00:00")]
    ⟨none, "", ""⟩ "DateTime" "2021:02:02 00:00:00" "not a date"
    "2020:01:01 00:00:00" ⟨2021, 2, 2, 0, 0, 0⟩ ⟨2020, 1, 1, 0, 0, 0⟩
    (Or.inl rfl) (by decide) (by decide) (by decide) (by decide)

/-! ## Walker model (`src/image_scanner.py`) -/

mutual
inductive FsEntry where
  | file (name : String) (isSymlink : Bool) (isImage : Bool)
  | dir (name : String) (isSymlink : Bool) (readable : Bool) (entries : FsEntries)
inductive FsEntries where
  | nil
  | cons (e : FsEntry) (rest : FsEntries)
end

/-- `ImageScanner._should_skip_directory` (image_scanner.py:46-64) over the
default skip set `{'@eaDir'}`: case-insensitive name comparison. -/
def shouldSkipDirectory (name : String) : Bool :=
  name.toLower == "@eaDir".toLower

mutual
/-- `ImageScanner._scan_directory_worker` (image_scanner.py:90-125).
`dirPath` is the directory's path; a directory whose listing raises
`PermissionError`/`OSError` (`readable = false`) is caught on lines 122-123
and contributes nothing, without aborting the caller.  `isImage` abstracts
`_is_image_file` (extension and MIME recognition against the external
mimetypes database); symlinked files and directories are never followed, and
skip-set directories are pruned. -/
def _scan_directory_worker (dirPath : String) : FsEntry → List String
  | .file _ _ _ => []
  | .dir _ _ readable entries =>
    if readable then scanEntries dirPath entries else []

/-- The `for item in directory.iterdir()` loop of `_scan_directory_worker`
(image_scanner.py:106-120). -/
def scanEntries (dirPath : String) : FsEntries → List String
  | .nil => []
  | .cons e rest =>
    (match e with
     | .file fname fsym fimg =>
       if fsym = false ∧ fimg = true then [dirPath ++ "/" ++ fname] else []
     | .dir dname dsym _ _ =>
       if dsym = false ∧ shouldSkipDirectory dname = false then
         _scan_directory_worker (dirPath ++ "/" ++ dname) e
       else []) ++ scanEntries dirPath rest
end

/-- `ImageScanner.scan_directory` (image_scanner.py:127-194), single-threaded
path (the multi-threaded branch only redistributes per-directory listing; the
result set is the same).  `root = none` models a nonexistent root path, a
`file` root models a root that is not a directory; both raise `ValueError`
(modelled as `.error`).  A valid root returns the deduplicated, sorted list
of found image paths. -/
def scan_directory (rootPath : String) (root : Option FsEntry) :
    Except String (List String) :=
  match root with
  | none => .error ("Directory does not exist: " ++ rootPath)
  | some (.file _ _ _) => .error ("Path is not a directory: " ++ rootPath)
  | some (.dir dn ds dr de) =>
    .ok (((_scan_directory_worker rootPath (.dir dn ds dr de)).dedup).mergeSort
      (fun a b => decide (a ≤ b)))

/-- **C10.** An invalid root is fatal: `scan_directory` raises `ValueError`
(rather than returning an empty list) when the root does not exist or is not
a directory, while any directory root — including one with unreadable
subdirectories, which are logged and skipped — completes the scan and
returns a result list. -/
theorem C10_scan_root_validation (rootPath : String) (root : Option FsEntry) :
    (root = none →
      scan_directory rootPath root =
        .error ("Directory does not exist: " ++ rootPath)) ∧
    (∀ n sym img, root = some (.file n sym img) →
      scan_directory rootPath root =
        .error ("Path is not a directory: " ++ rootPath)) ∧
    (∀ n sym readable entries, root = some (.dir n sym readable entries) →
      ∃ files, scan_directory rootPath root = .ok files) := by
  refine ⟨?_, ?_, ?_⟩
  · rintro rfl
    rfl
  · rintro n sym img rfl
    rfl
  · rintro n sym readable entries rfl
    exact ⟨_, rfl⟩

/-- Witness for C10: a root directory with an unreadable subdirectory and an
image file still scans successfully. -/
theorem C10_scan_root_validation_witness :
    ∃ files, scan_directory "/root"
      (some (.dir "root" false true
        (.cons (.dir "locked" false false .nil)
          (.cons (.file "a.jpg" false true) .nil)))) = .ok files :=
  (C10_scan_root_validation "/root"
      (some (.dir "root" false true
        (.cons (.dir "locked" false false .nil)
          (.cons (.file "a.jpg" false true) .nil))))).2.2
    "root" false true
    (.cons (.dir "locked" false false .nil)
      (.cons (.file "a.jpg" false true) .nil)) rfl

end Omnidupe
